import Mathlib

/-!
Verification of the energy-prediction pipeline (src/prediction.py).

Shallow embedding conventions:
- Timestamps (`ds`) are modelled as natural numbers counting hours since an
  arbitrary epoch; the hourly cadence of the pipeline makes one unit = one hour.
- Numeric values (energy readings, predictions, errors) are modelled as
  rationals; the claims under scrutiny concern which values enter each
  computation, not floating-point rounding.
- The Prophet model itself is out of scope (an opaque fit/predict collaborator
  in the spec); where the pipeline consumes it we abstract its point predictor
  as an explicit function argument, and we embed exactly the adapter wiring
  that the script owns: `make_future_dataframe` plus the regressor columns.
- File I/O is modelled by passing file contents directly: a source file is
  `Option (List Reading)` (`none` = the read raised and was caught), and the
  error-log file is `Option (List ErrorRecord)` (`none` = file absent).
-/

namespace EnergyPrediction

/-- A raw historical reading after the per-file normalisation of Step 1:
`ds` is the parsed Date+Hour timestamp (hours since epoch), `y` the energy. -/
structure Reading where
  ds : Nat
  y : ℚ
deriving DecidableEq, Repr

/-- Message of the `FileNotFoundError` raised at Step 1 when the data folder
holds no Excel files. -/
def noExcelFilesMsg : String := "No Excel files found"

/-- Message of the `ValueError` raised by `pd.concat` on an empty list, which
is what happens when every per-file read failed and `all_data` stayed empty. -/
def noObjectsMsg : String := "No objects to concatenate"

/-- `sort_values` on the `ds` column (line 37). `mergeSort` is a stable sort,
matching the deterministic ordering the pipeline relies on. -/
def sortByDs (rs : List Reading) : List Reading :=
  rs.mergeSort (fun a b => a.ds ≤ b.ds)

/-- Step 1 (lines 20-37): each element of `files` is one Excel file in the data
folder; `some batch` is a successful `read_excel` and `none` a read that raised
and was caught by the per-file `try/except`. An empty `files` list raises
`FileNotFoundError`; surviving batches are concatenated and sorted by `ds`.
`pd.concat` on an empty `all_data` raises `ValueError`. No deduplication of
timestamps is performed anywhere in Step 1. -/
def loadAndCombine (files : List (Option (List Reading))) : Except String (List Reading) :=
  if files.isEmpty then .error noExcelFilesMsg
  else
    let all_data := files.filterMap id
    if all_data.isEmpty then .error noObjectsMsg
    else .ok (sortByDs all_data.flatten)

/-- One row of the persisted error log (the Error History Store). Fields
mirror the columns written at Step 7.5: `ds`, `yhat`, `Actual`, `Error`,
`Absolute_Error`, `APE` (the derived `Date`/`Hour` columns are projections of
`ds` — `ds / 24` and `ds % 24` — and carry no extra information). -/
structure ErrorRecord where
  ds : Nat
  yhat : ℚ
  actual : ℚ
  error : ℚ
  absErr : ℚ
  ape : ℚ
deriving DecidableEq, Repr

/-- `sort_values` on the `ds` column of the error log (line 42), applied to
the (timestamp, error) projection that the rolling computation reads. -/
def sortLog (log : List (Nat × ℚ)) : List (Nat × ℚ) :=
  log.mergeSort (fun a b => a.1 ≤ b.1)

/-- `Series.rolling(window=24, min_periods=1).mean()` evaluated at row `i` of
the `Error` column (line 43): the mean of rows `max 0 (i-23) .. i`. With
`min_periods=1` the window at the start is partial, never empty (for `i` in
range); out of range, or on an empty column, the guarded mean returns 0. -/
def rollingErrorAt (errors : List ℚ) (i : Nat) : ℚ :=
  let win := (errors.take (i + 1)).drop (i + 1 - 24)
  if win.length = 0 then 0 else win.sum / win.length

/-- Step 2 (lines 41-44): sort the error log by `ds`, then attach the rolling
mean of `Error` to each row, keeping `(ds, rolling_error)`. -/
def errorRolling (log : List (Nat × ℚ)) : List (Nat × ℚ) :=
  let sorted := sortLog log
  let errs := sorted.map Prod.snd
  sorted.enum.map (fun p => (p.2.1, rollingErrorAt errs p.1))

/-- One row of the training frame handed to Prophet: `ds`, `y`,
`rolling_error`. -/
structure TrainRow where
  ds : Nat
  y : ℚ
  rolling_error : ℚ
deriving DecidableEq, Repr

/-- Lines 45-46: `pd.merge(combined_df, error_df, on=ds, how=left)` followed
by `fillna(0)`: each historical reading gets the rolling error of the record
whose timestamp matches exactly, or 0 when no record has that timestamp. -/
def mergeLeftFill0 (combined : List Reading) (reg : List (Nat × ℚ)) : List TrainRow :=
  combined.map (fun r =>
    { ds := r.ds, y := r.y,
      rolling_error := match reg.find? (fun p => p.1 == r.ds) with
                       | some p => p.2
                       | none => 0 })

/-- Step 2 as a whole: when the error-log file exists its rolling column is
joined onto the combined frame (with 0 default); when it does not exist
(line 47-49), the regressor column is constant 0. -/
def attachRegressor (combined : List Reading) (log : Option (List (Nat × ℚ))) : List TrainRow :=
  match log with
  | some l => mergeLeftFill0 combined (errorRolling l)
  | none => combined.map (fun r => { ds := r.ds, y := r.y, rolling_error := 0 })

/-- Largest `ds` of a list of timestamps: `combined_df[ds].max()` (line 61). -/
def listMax (l : List Nat) : Nat := l.foldr max 0

/-- Prophet `make_future_dataframe(periods, freq=H)` with the default
`include_history=True`, specialised to hour-unit timestamps: a date range of
`periods + 1` hourly stamps starting at the last history date, restricted to
those strictly after it and truncated to `periods`, appended after the history
dates. -/
def make_future_dataframe (history : List Nat) (periods : Nat) : List Nat :=
  let last := listMax history
  let dates := (((List.range (periods + 1)).map (fun k => last + k)).filter
    (fun d => last < d)).take periods
  history ++ dates

/-- Step 4 (lines 61-65): build the future frame and keep only the rows with
`ds` strictly after `last_timestamp`. -/
def futureDs (historyDs : List Nat) (periods : Nat) : List Nat :=
  (make_future_dataframe historyDs periods).filter (fun d => listMax historyDs < d)

/-- Line 68: `combined_df[rolling_error].iloc[-1]`, the regressor value of the
last row of the (sorted) training frame. -/
def last_known_error (rows : List TrainRow) : ℚ :=
  match rows.getLast? with
  | some r => r.rolling_error
  | none => 0

/-- Lines 64-69: the future frame handed to `model.predict`: every future
timestamp paired with the constant regressor `last_known_error`. -/
def futureFrame (rows : List TrainRow) (periods : Nat) : List (Nat × ℚ) :=
  (futureDs (rows.map TrainRow.ds) periods).map (fun d => (d, last_known_error rows))

/-- Line 95: `merged[Actual].replace(0, 1)` — the APE denominator, an exact
zero actual replaced by 1. -/
def replace0with1 (a : ℚ) : ℚ := if a = 0 then 1 else a

/-- Lines 93-95: the error columns of one merged row. `Error = yhat - Actual`,
`Absolute_Error = |Error|`, `APE = Absolute_Error / replace0with1 Actual * 100`. -/
def apeOf (yhat actual : ℚ) : ℚ := |yhat - actual| / replace0with1 actual * 100

/-- Build the full `log_df` row for a (forecast, actual) pair that share a
timestamp (lines 90-104). -/
def mkErrorRecord (ds : Nat) (yhat actual : ℚ) : ErrorRecord :=
  { ds := ds, yhat := yhat, actual := actual,
    error := yhat - actual, absErr := |yhat - actual|,
    ape := apeOf yhat actual }

/-- Step 7, lines 90-104: `pd.merge(forecast, actual_df, on=ds, how=inner)`
followed by the error-column computations. The inner join keeps exactly the
timestamps present in both frames, in forecast order (actual timestamps are
unique, being keyed readings). -/
def evalRecords (forecast : List (Nat × ℚ)) (actuals : List (Nat × ℚ)) : List ErrorRecord :=
  forecast.filterMap (fun f =>
    match actuals.find? (fun a => a.1 == f.1) with
    | some a => some (mkErrorRecord f.1 f.2 a.2)
    | none => none)

/-- Worker for `drop_duplicates(subset=[ds])`: scan the frame top to bottom,
keeping a row only when its `ds` has not been seen on an earlier row. -/
def dropDupByDsGo (seen : List Nat) : List ErrorRecord → List ErrorRecord
  | [] => []
  | r :: rs => if r.ds ∈ seen then dropDupByDsGo seen rs
               else r :: dropDupByDsGo (r.ds :: seen) rs

/-- `DataFrame.drop_duplicates(subset=[ds])` with the default `keep=first`:
of the rows sharing a timestamp, the FIRST occurrence in frame order is kept
and the later ones are dropped. -/
def dropDupByDs (l : List ErrorRecord) : List ErrorRecord :=
  dropDupByDsGo [] l

/-- Lookup of the stored record at a timestamp: the first row of the log whose
`ds` equals `t`. -/
def findByDs (t : Nat) (l : List ErrorRecord) : Option ErrorRecord :=
  l.find? (fun r => r.ds == t)

/-- Step 7.5, lines 108-112: when the error-log file exists, the new rows are
concatenated AFTER the existing log and the result deduplicated by `ds`;
when it does not exist, the new rows alone become the log. -/
def combined_log (existing : Option (List ErrorRecord)) (log_df : List ErrorRecord) : List ErrorRecord :=
  match existing with
  | some ex => dropDupByDs (ex ++ log_df)
  | none => log_df

/-- Outcome of Steps 5-7 of one run: the forecast artifact (always written,
Step 5 precedes the guard), the resulting state of the error-log file, and
whether the run wrote that file at all. -/
structure RunOutput where
  forecastFile : List (Nat × ℚ)
  errorLogFile : Option (List ErrorRecord)
  logWritten : Bool
deriving DecidableEq, Repr

/-- Steps 5-7 (lines 74-119): the forecast CSV is written unconditionally;
the `if not actual_df.empty` guard (line 89) makes evaluation and the
error-log write happen only when actuals are present. `forecastPts` is the
`(ds, yhat)` projection of `model.predict` output; `existing` is the
error-log file content (`none` = absent). -/
def runStep5to7 (forecastPts : List (Nat × ℚ)) (actuals : List (Nat × ℚ))
    (existing : Option (List ErrorRecord)) : RunOutput :=
  if actuals.isEmpty then
    { forecastFile := forecastPts, errorLogFile := existing, logWritten := false }
  else
    { forecastFile := forecastPts,
      errorLogFile := some (combined_log existing (evalRecords forecastPts actuals)),
      logWritten := true }

/-- The whole pipeline, with the opaque Prophet predictor abstracted as
`predict : ds → rolling_error → yhat`. Step 1 failures abort the run before
anything downstream (training included) happens. -/
def runPipeline (files : List (Option (List Reading)))
    (errorLog : Option (List (Nat × ℚ))) (periods : Nat)
    (predict : Nat → ℚ → ℚ) (actuals : List (Nat × ℚ))
    (existingLog : Option (List ErrorRecord)) : Except String RunOutput := do
  let combined ← loadAndCombine files
  let rows := attachRegressor combined errorLog
  let forecastPts := (futureFrame rows periods).map (fun p => (p.1, predict p.1 p.2))
  pure (runStep5to7 forecastPts actuals existingLog)

/-- The rolling signal as the spec words it: the mean of the `error` values
over the trailing window of at most 24 chronologically ordered records at or
before timestamp `t` (0 when no record qualifies). Written from the spec text
for comparison with the rolling column computed by Step 2. -/
def specTrailingMean (log : List (Nat × ℚ)) (t : Nat) : ℚ :=
  let sel := ((sortLog log).filter (fun p => p.1 ≤ t)).map Prod.snd
  let win := sel.drop (sel.length - 24)
  if win.length = 0 then 0 else win.sum / win.length

/-! ## Theorems -/

/-- Claim C7: when no historical source data is present (no input batches
exist), the program fails fast with the fatal no-source-data condition —
both the ingestion step and the whole pipeline return that error, so the run
aborts before training. -/
theorem claim_C7 (errorLog : Option (List (Nat × ℚ))) (periods : Nat)
    (predict : Nat → ℚ → ℚ) (actuals : List (Nat × ℚ))
    (existingLog : Option (List ErrorRecord)) :
    loadAndCombine [] = .error noExcelFilesMsg ∧
    runPipeline [] errorLog periods predict actuals existingLog
      = .error noExcelFilesMsg :=
  ⟨rfl, rfl⟩

/-- Claim C6: a run with no ground-truth actuals performs no evaluation and
no error-log write — the error-log file is left exactly as it was and the
written flag stays false — while the forecast artifact is still produced. -/
theorem claim_C6 (forecastPts : List (Nat × ℚ)) (existing : Option (List ErrorRecord)) :
    runStep5to7 forecastPts [] existing
      = { forecastFile := forecastPts, errorLogFile := existing, logWritten := false } :=
  rfl

/-- Claim C9: the rolling error signal is a deterministic function of the
Error History Store contents alone — the embedding of Step 2 takes only the
log as input (no clock, no invocation order), so equal store contents yield
identical signal values. -/
theorem claim_C9 (log1 log2 : List (Nat × ℚ)) (h : log1 = log2) :
    errorRolling log1 = errorRolling log2 := by
  rw [h]

/-- Witness for claim C9 at a concrete two-record store. -/
theorem claim_C9_witness :
    errorRolling [(0, 2), (1, 4)] = errorRolling [(0, 2), (1, 4)] :=
  claim_C9 [(0, 2), (1, 4)] [(0, 2), (1, 4)] rfl

/-- Counterexample to claim C3 as stated: with predicted = 100 and
actual = 0 the computed absolute percentage error is 10000, not 100 — the
absolute error 100 is divided by the substituted denominator 1 and then
scaled by 100. -/
theorem claim_C3_counterexample :
    apeOf 100 0 = 10000 ∧ apeOf 100 0 ≠ 100 := by
  constructor <;> norm_num [apeOf, replace0with1]

/-- Claim C3 (amended): when the actual value is exactly zero the
percentage-error denominator is substituted with 1, so the APE equals the
absolute error divided by 1 and scaled by 100; in particular for
predicted = 100 and actual = 0 it equals 10000 (not 100). -/
theorem claim_C3_amended :
    (∀ p : ℚ, apeOf p 0 = |p| / 1 * 100) ∧ apeOf 100 0 = 10000 := by
  constructor
  · intro p
    simp [apeOf, replace0with1]
  · norm_num [apeOf, replace0with1]

/-- The first-kept dedup scan never changes which record a timestamp lookup
returns: a timestamp already seen yields nothing, otherwise the first record
with that timestamp survives the scan. -/
theorem find?_dropDupByDsGo (t : Nat) (l : List ErrorRecord) :
    ∀ seen : List Nat,
      (dropDupByDsGo seen l).find? (fun r => r.ds == t)
        = if t ∈ seen then none else l.find? (fun r => r.ds == t) := by
  induction l with
  | nil =>
    intro seen
    by_cases ht : t ∈ seen
    · simp [dropDupByDsGo, ht]
    · simp [dropDupByDsGo, ht]
  | cons r rs ih =>
    intro seen
    rw [dropDupByDsGo]
    by_cases hr : r.ds ∈ seen
    · rw [if_pos hr, ih seen]
      by_cases ht : t ∈ seen
      · rw [if_pos ht, if_pos ht]
      · have hrt : ¬ ((fun s : ErrorRecord => s.ds == t) r = true) := by
          simp only [beq_iff_eq]
          intro e
          exact ht (e ▸ hr)
        rw [if_neg ht, if_neg ht,
          @List.find?_cons_of_neg ErrorRecord (fun s => s.ds == t) r rs hrt]
    · rw [if_neg hr]
      by_cases hrt : r.ds = t
      · have ht : t ∉ seen := fun hmem => hr (hrt ▸ hmem)
        have hp : ((fun s : ErrorRecord => s.ds == t) r = true) := beq_iff_eq.mpr hrt
        rw [if_neg ht,
          @List.find?_cons_of_pos ErrorRecord (fun s => s.ds == t) r
            (dropDupByDsGo (r.ds :: seen) rs) hp,
          @List.find?_cons_of_pos ErrorRecord (fun s => s.ds == t) r rs hp]
      · have hp : ¬ ((fun s : ErrorRecord => s.ds == t) r = true) := by
          simpa only [beq_iff_eq] using hrt
        rw [@List.find?_cons_of_neg ErrorRecord (fun s => s.ds == t) r
            (dropDupByDsGo (r.ds :: seen) rs) hp,
          ih (r.ds :: seen),
          @List.find?_cons_of_neg ErrorRecord (fun s => s.ds == t) r rs hp]
        by_cases ht : t ∈ seen
        · rw [if_pos ht, if_pos (List.mem_cons_of_mem _ ht)]
        · have ht2 : t ∉ r.ds :: seen := by
            intro hmem
            rcases List.mem_cons.mp hmem with h1 | h2
            · exact hrt h1.symm
            · exact ht h2
          rw [if_neg ht2, if_neg ht]

/-- `drop_duplicates(keep=first)` preserves the record found at every
timestamp. -/
theorem findByDs_dropDupByDs (t : Nat) (l : List ErrorRecord) :
    findByDs t (dropDupByDs l) = findByDs t l := by
  rw [findByDs, dropDupByDs, find?_dropDupByDsGo t l [],
    if_neg (List.not_mem_nil t), findByDs]

/-- Counterexample to claim C1 as stated: merging a new record (error 90) at
the already-present timestamp 5 leaves the OLD record (error 5) in the store —
`drop_duplicates` defaults to `keep=first`, and the existing log comes first
in the concatenation, so the stored error equals the oldest value. -/
theorem claim_C1_counterexample :
    findByDs 5 (combined_log (some [⟨5, 10, 5, 5, 5, 100⟩]) [⟨5, 99, 9, 90, 90, 1000⟩])
      = some ⟨5, 10, 5, 5, 5, 100⟩ ∧
    (ErrorRecord.mk 5 10 5 5 5 100).error ≠ (ErrorRecord.mk 5 99 9 90 90 1000).error := by
  exact ⟨rfl, by decide⟩

/-- Claim C1 (amended): on a timestamp collision during the Step 7.5 merge the
OLDER record wins (first-write-wins): the record stored at any timestamp
already present in the existing log is exactly the existing record, and the
newly computed record for that timestamp is discarded. -/
theorem claim_C1_amended (ex newRecs : List ErrorRecord) (t : Nat)
    (h : (findByDs t ex).isSome) :
    findByDs t (combined_log (some ex) newRecs) = findByDs t ex := by
  show findByDs t (dropDupByDs (ex ++ newRecs)) = findByDs t ex
  rw [findByDs_dropDupByDs, findByDs, findByDs, List.find?_append]
  obtain ⟨r, hr⟩ := Option.isSome_iff_exists.mp h
  rw [findByDs] at hr
  rw [hr, Option.or_some]

/-- Witness for claim C1 (amended) at a concrete one-record store and a
colliding new record. -/
theorem claim_C1_amended_witness :
    findByDs 5 (combined_log (some [⟨5, 10, 5, 5, 5, 100⟩]) [⟨5, 20, 4, 16, 16, 400⟩])
      = findByDs 5 [⟨5, 10, 5, 5, 5, 100⟩] :=
  claim_C1_amended [⟨5, 10, 5, 5, 5, 100⟩] [⟨5, 20, 4, 16, 16, 400⟩] 5 (by decide)

/-- Claim C8: a read failure of an individual source is skipped without
aborting the run — one surviving source suffices for ingestion to succeed —
while a run in which every source failed collapses into the fatal
no-data condition (the empty concatenation error). -/
theorem claim_C8 :
    (∀ files : List (Option (List Reading)), (∃ b, some b ∈ files) →
        (loadAndCombine files).isOk = true) ∧
    (∀ files : List (Option (List Reading)), files ≠ [] →
        files.filterMap id = [] → loadAndCombine files = .error noObjectsMsg) := by
  constructor
  · rintro files ⟨b, hb⟩
    have h1 : files.isEmpty = false := by
      rw [List.isEmpty_eq_false]
      intro e
      rw [e] at hb
      exact List.not_mem_nil _ hb
    have hbmem : b ∈ files.filterMap id := List.mem_filterMap.mpr ⟨some b, hb, rfl⟩
    have h2 : (files.filterMap id).isEmpty = false := by
      rw [List.isEmpty_eq_false]
      intro e
      rw [e] at hbmem
      exact List.not_mem_nil _ hbmem
    rw [loadAndCombine]
    simp only [h1, h2, Bool.false_eq_true, if_false]
    rfl
  · intro files hne hfm
    have h1 : files.isEmpty = false := List.isEmpty_eq_false.mpr hne
    rw [loadAndCombine]
    simp only [h1, hfm, Bool.false_eq_true, if_false, List.isEmpty_nil, if_true]

/-- Witness for claim C8: one failed and one surviving source succeed; two
failed sources collapse into the no-data error. -/
theorem claim_C8_witness :
    (loadAndCombine [none, some [⟨0, 1⟩]]).isOk = true ∧
    loadAndCombine [none, none] = .error noObjectsMsg :=
  ⟨claim_C8.1 [none, some [⟨0, 1⟩]] ⟨[⟨0, 1⟩], by decide⟩,
   claim_C8.2 [none, none] (by decide) rfl⟩

/-- Every timestamp appearing in the Step 2 rolling column is the timestamp of
some record of the error log. -/
theorem fst_of_mem_errorRolling (log : List (Nat × ℚ)) (q : Nat × ℚ)
    (h : q ∈ errorRolling log) : ∃ p, p ∈ log ∧ q.1 = p.1 := by
  simp only [errorRolling, List.mem_map] at h
  obtain ⟨p, hp, hq⟩ := h
  obtain ⟨i, x⟩ := p
  have hx : x ∈ sortLog log := List.getElem?_mem (List.mem_enum_iff_getElem?.mp hp)
  rw [sortLog, List.mem_mergeSort] at hx
  exact ⟨x, hx, by rw [← hq]⟩

/-- Claim C10: a historical timestamp with no error record at exactly that
timestamp gets training regressor 0 — even when records exist at earlier
timestamps — because Step 2 joins by exact timestamp equality with a 0
default rather than looking up a trailing mean at-or-before the timestamp. -/
theorem claim_C10 (combined : List Reading) (log : List (Nat × ℚ)) (i : Nat)
    (r : Reading) (hi : combined[i]? = some r)
    (hnot : ∀ q ∈ log, q.1 ≠ r.ds) :
    (attachRegressor combined (some log))[i]?
      = some { ds := r.ds, y := r.y, rolling_error := 0 } := by
  have hfind : (errorRolling log).find? (fun p => p.1 == r.ds) = none := by
    rw [List.find?_eq_none]
    intro x hx
    obtain ⟨p, hp, he⟩ := fst_of_mem_errorRolling log x hx
    simp only [beq_iff_eq]
    rw [he]
    exact hnot p hp
  show (mergeLeftFill0 combined (errorRolling log))[i]? = _
  rw [mergeLeftFill0, List.getElem?_map, hi]
  simp only [Option.map_some']
  rw [hfind]

/-- Witness for claim C10: the store has a record at the earlier timestamp 3,
yet the reading at timestamp 10 receives regressor 0. -/
theorem claim_C10_witness :
    (attachRegressor [⟨10, 5⟩] (some [(3, 7)]))[0]?
      = some { ds := 10, y := 5, rolling_error := 0 } :=
  claim_C10 [⟨10, 5⟩] [(3, 7)] 0 ⟨10, 5⟩ rfl (by decide)

/-- Every member of a list of timestamps is bounded by `listMax`. -/
theorem le_listMax (l : List Nat) (x : Nat) (hx : x ∈ l) : x ≤ listMax l := by
  induction l with
  | nil => exact absurd hx (List.not_mem_nil x)
  | cons a l ih =>
    show x ≤ max a (listMax l)
    rcases List.mem_cons.mp hx with h | h
    · exact h ▸ Nat.le_max_left _ _
    · exact Nat.le_trans (ih h) (Nat.le_max_right _ _)

/-- On a chronologically sorted nonempty list, the maximum timestamp is the
last one. -/
theorem listMax_of_sorted (l : List Nat) (x : Nat) (h : l.getLast? = some x)
    (hs : l.Pairwise (fun a b => a ≤ b)) : listMax l = x := by
  induction l with
  | nil => exact absurd h (by simp)
  | cons a l ih =>
    cases l with
    | nil =>
      obtain rfl : a = x := by simpa using h
      show max a 0 = a
      exact Nat.max_eq_left (Nat.zero_le a)
    | cons b l2 =>
      rw [List.getLast?_cons_cons] at h
      have hs2 := (List.pairwise_cons.mp hs).2
      have ha := (List.pairwise_cons.mp hs).1
      have htail := ih h hs2
      show max a (listMax (b :: l2)) = x
      rw [htail]
      apply Nat.max_eq_right
      rw [← htail]
      exact Nat.le_trans (ha b (List.mem_cons_self b l2)) (le_listMax _ b (List.mem_cons_self b l2))

/-- The future frame of Step 4, after the strictly-after filter, is exactly
the `periods` hourly timestamps following the maximal history timestamp. -/
theorem futureDs_eq (historyDs : List Nat) (n : Nat) :
    futureDs historyDs n
      = (List.range n).map (fun k => listMax historyDs + (k + 1)) := by
  simp only [futureDs, make_future_dataframe, List.filter_append]
  have h1 : historyDs.filter (fun d => decide (listMax historyDs < d)) = [] := by
    rw [List.filter_eq_nil_iff]
    intro a ha
    simp only [decide_eq_true_eq, Nat.not_lt]
    exact le_listMax historyDs a ha
  have h2 : (List.range (n + 1)).map (fun k => listMax historyDs + k)
      = listMax historyDs :: (List.range n).map (fun k => listMax historyDs + (k + 1)) := by
    rw [List.range_succ_eq_map, List.map_cons, List.map_map]
    rfl
  have h3 : ((List.range n).map (fun k => listMax historyDs + (k + 1))).filter
      (fun d => decide (listMax historyDs < d))
      = (List.range n).map (fun k => listMax historyDs + (k + 1)) := by
    rw [List.filter_eq_self]
    intro a ha
    simp only [List.mem_map] at ha
    obtain ⟨k, _, rfl⟩ := ha
    simp only [decide_eq_true_eq]
    omega
  have h4 : (listMax historyDs :: (List.range n).map (fun k => listMax historyDs + (k + 1))).filter
      (fun d => decide (listMax historyDs < d))
      = (List.range n).map (fun k => listMax historyDs + (k + 1)) := by
    rw [List.filter_cons_of_neg (by simp), h3]
  rw [h1, h2, h4, List.nil_append]
  rw [List.take_of_length_le (by rw [List.length_map, List.length_range])]
  exact h3

/-- Claim C4: for a chronologically sorted training series with last row
`last` and requested horizon `n`, the future frame consists of exactly `n`
consecutive hourly timestamps, the point at offset `i` sits at the stamp
`last.ds + (i + 1)` — strictly after the last historical timestamp — and
carries the training-series regressor of the last row, held constant. -/
theorem claim_C4 (rows : List TrainRow) (n : Nat) (last : TrainRow) (i : Nat)
    (h : rows.getLast? = some last)
    (hs : (rows.map TrainRow.ds).Pairwise (fun a b => a ≤ b))
    (hi : i < n) :
    (futureFrame rows n).length = n ∧
    (futureFrame rows n)[i]? = some (last.ds + (i + 1), last.rolling_error) := by
  have hmapLast : (rows.map TrainRow.ds).getLast? = some last.ds := by
    rw [List.getLast?_map, h, Option.map_some']
  have hT : listMax (rows.map TrainRow.ds) = last.ds :=
    listMax_of_sorted _ _ hmapLast hs
  have hlast : last_known_error rows = last.rolling_error := by
    rw [last_known_error, h]
  constructor
  · rw [futureFrame, List.length_map, futureDs_eq, List.length_map, List.length_range]
  · rw [futureFrame, List.getElem?_map, futureDs_eq, List.getElem?_map,
      List.getElem?_range hi, hT, hlast]
    rfl

/-- Witness for claim C4: a one-row training series ending at hour 23 and a
24-hour horizon; the first forecast point sits at hour 24 with the regressor
of the last training row. -/
theorem claim_C4_witness :
    (futureFrame [⟨23, 5, 2⟩] 24).length = 24 ∧
    (futureFrame [⟨23, 5, 2⟩] 24)[0]? = some (23 + (0 + 1), 2) :=
  claim_C4 [⟨23, 5, 2⟩] 24 ⟨23, 5, 2⟩ 0 rfl (by simp) (by omega)

/-- On a strictly chronologically sorted log, the records at or before the
timestamp of the record at index `i` are exactly the first `i + 1` records. -/
theorem filter_le_take (log : List (Nat × ℚ)) :
    log.Pairwise (fun a b => a.1 < b.1) →
    ∀ (i : Nat) (p : Nat × ℚ), log[i]? = some p →
      log.filter (fun q => decide (q.1 ≤ p.1)) = log.take (i + 1) := by
  induction log with
  | nil =>
    intro _ i p hip
    simp at hip
  | cons a l ih =>
    intro hsort i p hip
    have ha := (List.pairwise_cons.mp hsort).1
    have hl := (List.pairwise_cons.mp hsort).2
    cases i with
    | zero =>
      obtain rfl : a = p := by simpa using hip
      rw [List.take_succ_cons, List.take_zero]
      rw [List.filter_cons_of_pos (by simp)]
      congr 1
      rw [List.filter_eq_nil_iff]
      intro q hq
      simp only [decide_eq_true_eq]
      exact Nat.not_le.mpr (ha q hq)
    | succ j =>
      have hip2 : l[j]? = some p := by simpa using hip
      have hpl : p ∈ l := List.getElem?_mem hip2
      rw [List.take_succ_cons]
      rw [List.filter_cons_of_pos
        (by simp only [decide_eq_true_eq]; exact Nat.le_of_lt (ha p hpl))]
      rw [ih hl j p hip2]

/-- A strictly chronologically sorted log is unchanged by the Step 2 sort. -/
theorem sortLog_of_sorted (log : List (Nat × ℚ))
    (hsort : log.Pairwise (fun a b => a.1 < b.1)) : sortLog log = log := by
  rw [sortLog]
  apply List.mergeSort_of_sorted
  exact hsort.imp (fun h => by simp only [decide_eq_true_eq]; exact Nat.le_of_lt h)

/-- Claim C5: on a strictly chronologically sorted Error History Store the
Step 2 rolling column at each record equals the spec-side trailing mean — the
mean over the at most 24 records at or before the timestamp of that record;
on an empty error column the rolling value is 0; on a one-record store the
signal is the error of that record; and on a 30-record store the signal at
the 30th record is the mean of records 7 through 30. -/
theorem claim_C5 (log : List (Nat × ℚ)) (i : Nat) (p : Nat × ℚ)
    (hsort : log.Pairwise (fun a b => a.1 < b.1))
    (hip : log[i]? = some p) :
    (errorRolling log)[i]? = some (p.1, specTrailingMean log p.1) ∧
    rollingErrorAt [] i = 0 ∧
    (log.length = 1 → errorRolling log = log) ∧
    (log.length = 30 → i = 29 →
      (errorRolling log)[29]? = some (p.1, ((log.map Prod.snd).drop 6).sum / 24)) := by
  have hi : i < log.length := by
    rcases List.getElem?_eq_some.mp hip with ⟨h, _⟩
    exact h
  have hfil := filter_le_take log hsort i p hip
  have hsnd : rollingErrorAt (log.map Prod.snd) i = specTrailingMean log p.1 := by
    have hlen : ((log.map Prod.snd).take (i + 1)).length = i + 1 := by
      rw [List.length_take, List.length_map]
      omega
    simp only [specTrailingMean, sortLog_of_sorted log hsort, hfil, List.map_take,
      rollingErrorAt, hlen]
  have hmain : (errorRolling log)[i]? = some (p.1, specTrailingMean log p.1) := by
    simp only [errorRolling, sortLog_of_sorted log hsort]
    rw [List.getElem?_map, List.getElem?_enum, hip]
    simp only [Option.map_some']
    rw [← hsnd]
  refine ⟨hmain, by simp [rollingErrorAt], ?_, ?_⟩
  · intro hlen1
    obtain ⟨a, rfl⟩ := List.length_eq_one.mp hlen1
    simp only [errorRolling, sortLog_of_sorted _ hsort]
    show [(a.1, rollingErrorAt [a.2] 0)] = [a]
    have h1 : rollingErrorAt [a.2] 0 = a.2 := by simp [rollingErrorAt]
    rw [h1]
  · intro h30 hi29
    subst hi29
    have hspec : specTrailingMean log p.1 = ((log.map Prod.snd).drop 6).sum / 24 := by
      have hfil2 := hfil
      rw [List.take_of_length_le (by omega)] at hfil2
      simp only [specTrailingMean, sortLog_of_sorted log hsort, hfil2,
        List.length_map, h30, List.length_drop]
      norm_num
    rw [hmain, hspec]

/-- Witness for claim C5 at a concrete sorted two-record store. -/
theorem claim_C5_witness :
    (errorRolling [(1, 4), (2, 8)])[1]? = some (2, specTrailingMean [(1, 4), (2, 8)] 2) ∧
    rollingErrorAt [] 1 = 0 ∧
    (([(1, 4), (2, 8)] : List (Nat × ℚ)).length = 1 →
      errorRolling [(1, 4), (2, 8)] = [(1, 4), (2, 8)]) ∧
    (([(1, 4), (2, 8)] : List (Nat × ℚ)).length = 30 → (1 : Nat) = 29 →
      (errorRolling [(1, 4), (2, 8)])[29]?
        = some (2, ((([(1, 4), (2, 8)] : List (Nat × ℚ)).map Prod.snd).drop 6).sum / 24)) :=
  claim_C5 [(1, 4), (2, 8)] 1 (2, 8) (by decide) rfl

/-- Counterexample to claim C2 as stated: two overlapping batches, both with
a reading at timestamp 1, yield a canonical series that KEEPS both rows —
Step 1 sorts but never deduplicates, so the output has a duplicate timestamp
and no winner is selected. -/
theorem claim_C2_counterexample :
    loadAndCombine [some [⟨1, 5⟩], some [⟨1, 7⟩]] = .ok [⟨1, 5⟩, ⟨1, 7⟩] ∧
    ¬ (([⟨1, 5⟩, ⟨1, 7⟩] : List Reading).map Reading.ds).Nodup := by
  constructor
  · show Except.ok (sortByDs [⟨1, 5⟩, ⟨1, 7⟩]) = _
    rw [sortByDs, List.mergeSort_of_sorted (by decide)]
  · decide

/-- Claim C2 (amended): the canonical series is sorted ascending by timestamp
and is a permutation of all surviving input rows — overlapping timestamps are
all retained (no deduplication, no winner) — and it is duplicate-free exactly
when the input batches collectively carry pairwise distinct timestamps. -/
theorem claim_C2_amended (files : List (Option (List Reading))) (out : List Reading)
    (hout : loadAndCombine files = .ok out) :
    out.Pairwise (fun a b => a.ds ≤ b.ds) ∧
    out.Perm (files.filterMap id).flatten ∧
    (((files.filterMap id).flatten.map Reading.ds).Nodup → (out.map Reading.ds).Nodup) := by
  have hout2 : out = sortByDs (files.filterMap id).flatten := by
    simp only [loadAndCombine] at hout
    split at hout
    · exact Except.noConfusion hout
    · split at hout
      · exact Except.noConfusion hout
      · exact (Except.ok.inj hout).symm
  subst hout2
  refine ⟨?_, ?_, ?_⟩
  · have hs := @List.sorted_mergeSort Reading (fun a b => a.ds ≤ b.ds)
      (fun a b c h1 h2 => by
        simp only [decide_eq_true_eq] at h1 h2 ⊢
        omega)
      (fun a b => by
        simp only [Bool.or_eq_true, decide_eq_true_eq]
        exact Nat.le_total a.ds b.ds)
      ((files.filterMap id).flatten)
    exact hs.imp (fun h => by simpa using h)
  · exact List.mergeSort_perm _ _
  · intro hnd
    have hperm : ((sortByDs ((files.filterMap id).flatten)).map Reading.ds).Perm
        (((files.filterMap id).flatten).map Reading.ds) :=
      (List.mergeSort_perm _ _).map _
    exact hperm.nodup_iff.mpr hnd

/-- Witness for claim C2 (amended) on a single one-row batch. -/
theorem claim_C2_amended_witness :
    ([⟨1, 5⟩] : List Reading).Pairwise (fun a b => a.ds ≤ b.ds) ∧
    ([⟨1, 5⟩] : List Reading).Perm
      ((([some [⟨1, 5⟩]] : List (Option (List Reading))).filterMap id).flatten) ∧
    (((([some [⟨1, 5⟩]] : List (Option (List Reading))).filterMap id).flatten.map
        Reading.ds).Nodup → (([⟨1, 5⟩] : List Reading).map Reading.ds).Nodup) :=
  claim_C2_amended [some [⟨1, 5⟩]] [⟨1, 5⟩] (by simp [loadAndCombine, sortByDs])

end EnergyPrediction
